import Mathlib

/-!
Verification development for the cors-proxify reverse proxy
(src/corsProxy.ts, src/rateLimit.ts, src/utils.ts, src/server.ts).

The embedding models JavaScript header maps as insertion-ordered
association lists, JavaScript string-keyed objects likewise, and the
WHATWG URL constructor as an explicit `Option`-valued parser (failure of
the constructor corresponds to a thrown TypeError, which we propagate as
`Except.error`).  Machine integers do not occur: all numbers involved
(ports, counters, redirect counts) are JavaScript integers well inside
the safe range and are modelled as `Nat`.
-/

namespace CorsProxy

/-- Insertion-ordered header / object map, as JavaScript plain objects
with string keys behave. -/
abbrev Headers := List (String × String)

/-- `headers[k]`: first (and only, since JavaScript object keys are
unique) binding of `k`. -/
def hGet (hs : Headers) (k : String) : Option String :=
  (hs.find? (fun p => p.1 == k)).map Prod.snd

/-- `headers[k] = v`: JavaScript keeps the position of an existing key
and appends a fresh key at the end.  (Object keys are unique, so
replacing the first occurrence is replacing the only one.) -/
def hSet (hs : Headers) (k v : String) : Headers :=
  match hs with
  | [] => [(k, v)]
  | p :: t => if p.1 == k then (p.1, v) :: t else p :: hSet t k v

/-- `delete headers[k]`. -/
def hDel (hs : Headers) (k : String) : Headers :=
  hs.filter (fun p => !(p.1 == k))

/-- JavaScript truthiness of a possibly-absent string value
(`undefined` and the empty string are falsy). -/
def jsTruthy : Option String → Bool
  | some s => !(s == "")
  | none => false

/-- An inbound `http.IncomingMessage`, restricted to the fields the
proxy reads: method, url (possibly absent) and (lower-cased, as node
delivers them) headers. -/
structure Request where
  method : String
  url : Option String
  headers : Headers
  deriving Repr

/-! ### Basic lemmas about the header map -/

/-! ### withCORS (src/corsProxy.ts lines 234-257)

`withCORS(headers, request, corsMaxAge)` mutates and returns the given
response headers, and also mutates the request (it deletes the two
`access-control-request-*` negotiation headers).  We return the pair
(updated response headers, updated request). -/

/-- One of the two mirror steps of `withCORS`: if the request carries a
(truthy) `reqKey` negotiation header, copy its value to `resKey` on the
response headers and delete it from the request headers.  The pair is
(response headers, request headers). -/
def mirrorHeader (resKey reqKey : String) (p : Headers × Headers) :
    Headers × Headers :=
  if jsTruthy (hGet p.2 reqKey) then
    (hSet p.1 resKey ((hGet p.2 reqKey).getD ""), hDel p.2 reqKey)
  else p

def withCORS (headers : Headers) (request : Request) (corsMaxAge : Nat) :
    Headers × Request :=
  let headers := hSet headers "access-control-allow-origin" "*"
  let headers :=
    if request.method == "OPTIONS" && !(corsMaxAge == 0) then
      hSet headers "access-control-max-age" (toString corsMaxAge)
    else headers
  let p := mirrorHeader "access-control-allow-methods"
    "access-control-request-method" (headers, request.headers)
  let p := mirrorHeader "access-control-allow-headers"
    "access-control-request-headers" p
  let headers := hSet p.1 "access-control-expose-headers"
    (String.intercalate "," (p.1.map Prod.fst))
  (headers, { request with headers := p.2 })

/-! ### The WHATWG URL constructor

utils.ts calls the platform `new URL(input)` (and `new URL(input, base)`
in corsProxy.ts).  We model the constructor for the inputs this program
builds: absolute `http:`/`https:` URLs and the non-special-scheme /
no-scheme failure behaviour that the no-proxy matching relies on.  A
`none` result models the constructor throwing `TypeError: Invalid URL`;
in particular ports greater than 65535 make the constructor fail, and an
input without a scheme (no colon after a leading run of scheme
characters) fails when no base is given. -/

def isAsciiAlpha (c : Char) : Bool :=
  (('a' ≤ c) && (c ≤ 'z')) || (('A' ≤ c) && (c ≤ 'Z'))

def isDigitChar (c : Char) : Bool :=
  ('0' ≤ c) && (c ≤ '9')

def isSchemeChar (c : Char) : Bool :=
  isAsciiAlpha c || isDigitChar c || (c == '+') || (c == '-') || (c == '.')

/-- Scan `scheme:`; the accumulator holds the scheme characters read so
far, reversed. -/
def schemeSplit (acc : List Char) : List Char → Option (List Char × List Char)
  | [] => none
  | c :: rest =>
    if c == ':' then some (acc.reverse, rest)
    else if isSchemeChar c then schemeSplit (c.toLower :: acc) rest
    else none

/-- Split `scheme:rest` (scheme lower-cased, first char ASCII alpha). -/
def takeScheme (l : List Char) : Option (List Char × List Char) :=
  match l with
  | [] => none
  | c :: _ => if isAsciiAlpha c then schemeSplit [] l else none

/-- The parsed URL record, with the fields this program reads.
`protocol` includes the trailing colon; `port` is the serialized port
(empty when absent or equal to the scheme default); `search` includes
the leading question mark when non-empty. -/
structure URLRec where
  protocol : String
  hostname : String
  port : String
  pathname : String
  search : String
  deriving Repr, DecidableEq

def URLRec.host (u : URLRec) : String :=
  u.hostname ++ (if u.port == "" then "" else ":" ++ u.port)

/-- `toString()` / `.href` of a parsed special-scheme URL (no userinfo,
no fragment, which this program never produces). -/
def URLRec.href (u : URLRec) : String :=
  u.protocol ++ "//" ++ u.host ++ u.pathname ++ u.search

/-- Drop a `userinfo@`: the host starts after the last `@`. -/
def afterLastAt (l : List Char) : List Char :=
  let r := l.reverse.takeWhile (fun c => !(c == '@'))
  if r.length == l.length then l else r.reverse

/-- Split an authority at the first colon outside an IPv6 bracket pair. -/
def splitHostPort (auth : List Char) : List Char × Option (List Char) :=
  match auth with
  | '[' :: rest =>
    let inside := rest.takeWhile (fun c => !(c == ']'))
    let after := rest.drop (inside.length + 1)
    match after with
    | ':' :: p => ('[' :: inside ++ [']'], some p)
    | _ => ('[' :: inside ++ [']'], none)
  | _ =>
    let h := auth.takeWhile (fun c => !(c == ':'))
    if h.length == auth.length then (auth, none)
    else (h, some (auth.drop (h.length + 1)))

def natOfDigits (l : List Char) : Nat :=
  l.foldl (fun a c => a * 10 + (c.toNat - '0'.toNat)) 0

/-- WHATWG port parsing: digits only, value at most 65535 (otherwise the
constructor fails), serialized canonically, empty when equal to the
scheme's default port. -/
def parsePort (p : List Char) (dflt : Option Nat) : Option String :=
  if p == [] then some ""
  else if p.all isDigitChar then
    let v := natOfDigits p
    if v > 65535 then none
    else if dflt == some v then some "" else some (toString v)
  else none

def forbiddenHostChar (c : Char) : Bool :=
  c ∈ ['\x00', '\t', '\n', '\r', ' ', '#', '/', ':', '<', '>', '?', '@',
    '[', '\\', ']', '^', '|', '%']

/-- WHATWG host parsing, restricted to the shapes this program feeds it:
lower-cased, must be non-empty for special schemes, forbidden host code
points make the constructor fail.  A bracketed IPv6 literal is kept
as written (lower-cased). -/
def parseHost (h : List Char) (specialScheme : Bool) : Option String :=
  match h with
  | [] => if specialScheme then none else some ""
  | '[' :: rest =>
    if rest.reverse.take 1 == [']'] then some (String.mk (('[' :: rest).map Char.toLower))
    else none
  | _ =>
    if h.any forbiddenHostChar then none
    else some (String.mk (h.map Char.toLower))

/-- Split what follows the authority into pathname and search, dropping
any fragment. -/
def splitPathQuery (l : List Char) : String × String :=
  let noFrag := l.takeWhile (fun c => !(c == '#'))
  let path := noFrag.takeWhile (fun c => !(c == '?'))
  (String.mk path, String.mk (noFrag.drop path.length))

/-- Authority-and-path parsing shared by the special schemes: the
characters after `scheme:`, with every leading slash consumed (WHATWG
"special authority ignore slashes"). -/
def specialURL (scheme : String) (dflt : Nat) (rest : List Char) :
    Option URLRec :=
  let rest := rest.dropWhile (fun c => (c == '/') || (c == '\\'))
  let auth := rest.takeWhile (fun c => !((c == '/') || (c == '?') || (c == '#')))
  let after := rest.drop auth.length
  let hostPart := afterLastAt auth
  let hp := splitHostPort hostPart
  match parseHost hp.1 true with
  | none => none
  | some host =>
    match (match hp.2 with
           | none => some ""
           | some p => parsePort p (some dflt)) with
    | none => none
    | some port =>
      let pq := splitPathQuery after
      some { protocol := scheme ++ ":", hostname := host, port := port,
             pathname := if pq.1 == "" then "/" else pq.1, search := pq.2 }

/-- A non-special scheme (anything but http/https here): with `//` an
authority (host may be empty); otherwise an opaque path and no host.
This is exactly what makes `new URL("example.com:8080")` succeed with
an empty hostname while `new URL("example.com")` throws. -/
def nonSpecialURL (scheme : String) (rest : List Char) : Option URLRec :=
  match rest with
  | '/' :: '/' :: r =>
    let auth := r.takeWhile (fun c => !((c == '/') || (c == '?') || (c == '#')))
    let after := r.drop auth.length
    let hp := splitHostPort (afterLastAt auth)
    match parseHost hp.1 false with
    | none => none
    | some host =>
      match (match hp.2 with
             | none => some ""
             | some p => parsePort p none) with
      | none => none
      | some port =>
        let pq := splitPathQuery after
        some { protocol := scheme ++ ":", hostname := host, port := port,
               pathname := pq.1, search := pq.2 }
  | _ =>
    let pq := splitPathQuery rest
    some { protocol := scheme ++ ":", hostname := "", port := "",
           pathname := pq.1, search := pq.2 }

/-- `new URL(input)` without a base. -/
def newURLCore (l : List Char) : Option URLRec :=
  match takeScheme l with
  | none => none
  | some (sch, rest) =>
    let scheme := String.mk sch
    if scheme == "http" then specialURL "http" 80 rest
    else if scheme == "https" then specialURL "https" 443 rest
    else nonSpecialURL scheme rest

def newURL (s : String) : Option URLRec :=
  newURLCore s.data

/-- Does the second list start with the first (the pattern)? -/
def matchSeq : List Char → List Char → Bool
  | [], _ => true
  | _ :: _, [] => false
  | p :: ps, c :: cs => (c == p) && matchSeq ps cs

def startsWithSeq (l pat : List Char) : Bool :=
  matchSeq pat l

/-- Keep the base path up to and including its last slash (used for
relative-reference resolution). -/
def upToLastSlash (l : List Char) : List Char :=
  (l.reverse.dropWhile (fun c => !(c == '/'))).reverse

/-- `new URL(input, base)`: the relative-resolution cases this program
exercises (absolute input, scheme-relative, path-absolute, query-only,
and plain relative references). -/
def resolveURL (input : String) (base : URLRec) : Option URLRec :=
  match takeScheme input.data with
  | some _ => newURLCore input.data
  | none =>
    if startsWithSeq input.data ['/', '/'] then
      newURLCore (base.protocol ++ input).data
    else if startsWithSeq input.data ['/'] then
      newURLCore (base.protocol ++ "//" ++ base.host ++ input).data
    else if startsWithSeq input.data ['?'] then
      newURLCore (base.protocol ++ "//" ++ base.host ++ base.pathname ++ input).data
    else if input == "" then some base
    else
      newURLCore (base.protocol ++ "//" ++ base.host
        ++ String.mk (upToLastSlash base.pathname.data) ++ input).data

/-! ### parseURL (src/utils.ts lines 12-39)

The regular expression
`^(?:(https?:)?\/\/)?(([^\/?]+?)(?::(\d..5)(?=[\/?]|$))?)([\/?][\S\s]*|$)`
is embedded as a deterministic matcher: the lazy host group grows until
either a colon followed by at most five digits reaching the end of the
host run, or the end of the run itself; the optional scheme-and-slashes
prefix backtracks to the empty prefix when the rest cannot match. -/

structure RawMatch where
  scheme : Option String
  host : String
  port : Option String
  deriving Repr, DecidableEq

/-- Find the first colon whose suffix within the host run is at most
five digits reaching the end of the run; the accumulator holds the host
characters read so far, reversed. -/
def colonSplit (acc : List Char) : List Char → List Char × Option (List Char)
  | [] => (acc.reverse, none)
  | c :: rest =>
    if c == ':' then
      if rest.all isDigitChar && decide (rest.length ≤ 5) then
        (acc.reverse, some rest)
      else colonSplit (c :: acc) rest
    else colonSplit (c :: acc) rest

/-- Match the host-port-rest body of the regular expression against the
text after the chosen prefix. -/
def bodyMatch (t : List Char) : Option (List Char × Option (List Char)) :=
  let run := t.takeWhile (fun c => !((c == '/') || (c == '?')))
  if run == [] then none else some (colonSplit [] run)

def tryBody (l : List Char) (pre : Nat) (sch : Option String) :
    Option RawMatch :=
  match bodyMatch (l.drop pre) with
  | none => none
  | some (h, p) =>
    some { scheme := sch, host := String.mk h, port := p.map String.mk }

def regexMatch (s : String) : Option RawMatch :=
  let l := s.data
  let lower := l.map Char.toLower
  if startsWithSeq lower "https://".data then
    (tryBody l 8 (some (String.mk (l.take 6)))).orElse
      (fun _ => tryBody l 0 none)
  else if startsWithSeq lower "http://".data then
    (tryBody l 7 (some (String.mk (l.take 5)))).orElse
      (fun _ => tryBody l 0 none)
  else if startsWithSeq l "//".data then
    (tryBody l 2 none).orElse (fun _ => tryBody l 0 none)
  else tryBody l 0 none

def ciStartsWith (s : String) (p : String) : Bool :=
  startsWithSeq (s.data.map Char.toLower) p.data

/-- The tail of `parseURL` after `new URL(testUrl)`: `null` when the
parsed URL has no hostname. -/
def finishParse (testUrl : String) : Except String (Option URLRec) :=
  match newURL testUrl with
  | none => .error "Invalid URL"
  | some parsed =>
    if parsed.hostname == "" then .ok none else .ok (some parsed)

/-- The scheme-omitted branch of `parseURL`: reject what looks like a
malformed scheme-prefixed URL, default the missing `//`, then prefix the
scheme inferred from the regex port group. -/
def parseURLNoScheme (r : String) (m : RawMatch) :
    Except String (Option URLRec) :=
  if ciStartsWith r "http:" || ciStartsWith r "https:" then .ok none
  else
    let t := if startsWithSeq r.data "//".data then r else "//" ++ r
    let t := (if m.port == some "443" then "https:" else "http:") ++ t
    finishParse t

/-- `parseURL(req.url)`.  `.error` models the uncaught `TypeError` the
WHATWG `URL` constructor throws (for example on a port above 65535);
`.ok none` models the function returning `null`. -/
def parseURL (reqUrl : Option String) : Except String (Option URLRec) :=
  match reqUrl with
  | none => .ok none
  | some r =>
    if r == "" then .ok none
    else
      match regexMatch r with
      | none => .ok none
      | some m =>
        match m.scheme with
        | some _ => finishParse r
        | none => parseURLNoScheme r m

/-! ### getProxyForUrl (src/utils.ts lines 50-106)

The four configuration values are read from the environment at module
load; we pass them as an explicit record.  `Except.error` models an
uncaught thrown `TypeError` (from `new URL`). -/

structure ProxyEnv where
  no_proxy : Option String
  http_proxy : Option String
  https_proxy : Option String
  all_proxy : Option String

/-- `String.prototype.split(",")`. -/
def splitCommaCore : List Char → List (List Char)
  | [] => [[]]
  | c :: rest =>
    let r := splitCommaCore rest
    if c == ',' then [] :: r
    else
      match r with
      | [] => [[c]]
      | h :: t => (c :: h) :: t

def jsSplitComma (s : String) : List String :=
  (splitCommaCore s.data).map String.mk

/-- `Array.prototype.every` with a callback that can throw. -/
def jsEvery (f : String → Except String Bool) : List String → Except String Bool
  | [] => .ok true
  | x :: xs =>
    match f x with
    | .error e => .error e
    | .ok false => .ok false
    | .ok true => jsEvery f xs

def listContainsSeq (l pat : List Char) : Bool :=
  startsWithSeq l pat ||
    match l with
    | [] => false
    | _ :: rest => listContainsSeq rest pat

def shouldProxyUrl (env : ProxyEnv) (url : String) : Except String Bool :=
  if !(jsTruthy env.no_proxy) then .ok true
  else
    let np := env.no_proxy.getD ""
    if np == "*" then .ok false
    else
      let noProxyDomains := jsSplitComma np
      match newURL url with
      | none => .error "Invalid URL"
      | some proxiedUrl =>
        jsEvery (fun domain =>
          if domain == "" then .ok true
          else
            match newURL domain with
            | none => .error "Invalid URL"
            | some domainUrl =>
              if !(domainUrl.port == "") && !(domainUrl.port == proxiedUrl.port) then
                .ok true
              else .ok (domainUrl.hostname == proxiedUrl.hostname))
          noProxyDomains

def getProxyForUrl (env : ProxyEnv) (url : String) : Except String (Option String) :=
  match newURL url with
  | none => .error "Invalid URL"
  | some u =>
    if u.hostname == "" then .ok none
    else
      match shouldProxyUrl env url with
      | .error e => .error e
      | .ok true => .ok none
      | .ok false =>
        let parsedProtocol :=
          String.mk (u.protocol.data.takeWhile (fun c => !(c == ':')))
        let proxy : Option String :=
          if parsedProtocol == "http" then env.http_proxy else none
        let proxy :=
          if parsedProtocol == "https" then env.https_proxy else proxy
        let proxy := if jsTruthy env.all_proxy then env.all_proxy else proxy
        let proxy :=
          if jsTruthy proxy && !(listContainsSeq (proxy.getD "").data "://".data)
          then some (u.protocol ++ "://" ++ proxy.getD "") else proxy
        .ok proxy

/-! ### createRateLimitChecker (src/rateLimit.ts)

The returned checker closes over the mutable `accessedHosts` mapping; we
model one call as a state transition on that mapping.  The compiled
case-insensitive unlimited-host pattern is passed as an opaque predicate
`unlim` (the regular expression itself is built by the external RegExp
engine). -/

def isWordChar (c : Char) : Bool :=
  isAsciiAlpha c || isDigitChar c || (c == '_')

/-- `origin.replace(regex-scheme-and-slashes, "")`: strip a leading run
of word characters or hyphens followed by `://`. -/
def stripScheme (origin : String) : String :=
  let l := origin.data
  let pre := l.takeWhile (fun c => isWordChar c || (c == '-'))
  let rest := l.drop pre.length
  if !(pre == []) && startsWithSeq rest "://".data then
    String.mk (rest.drop 3)
  else origin

def rateLimitMessage (maxRequestsPerPeriod periodInMinutes : Nat) : String :=
  "The number of requests is limited to " ++ toString maxRequestsPerPeriod ++
  (if periodInMinutes == 1 then " per minute"
   else " per " ++ toString periodInMinutes ++ " minutes") ++
  ". " ++
  "Please self-host CORS Anywhere if you need more quota. " ++
  "See https://github.com/Rob--W/cors-anywhere#demo-server"

/-- The `accessedHosts` mapping (a plain object used as a dictionary). -/
abbrev AccessedHosts := List (String × Nat)

/-- `accessedHosts[host] || 0`. -/
def rlGet (hosts : AccessedHosts) (h : String) : Nat :=
  (((hosts.find? (fun p => p.1 == h)).map Prod.snd).getD 0)

/-- `accessedHosts[host] = count`. -/
def rlSet (hosts : AccessedHosts) (h : String) (n : Nat) : AccessedHosts :=
  match hosts with
  | [] => [(h, n)]
  | p :: t => if p.1 == h then (p.1, n) :: t else p :: rlSet t h n

/-- The fresh mapping installed at start and by the periodic
`setInterval` reset (`accessedHosts = Object.create(null)`). -/
def resetHosts : AccessedHosts := []

/-- One call of the checker returned by `createRateLimitChecker`:
returns the (possibly empty) result and the updated mapping. -/
def checkRateLimitStep (maxRequestsPerPeriod periodInMinutes : Nat)
    (unlim : String → Bool) (hosts : AccessedHosts) (origin : String) :
    Option String × AccessedHosts :=
  let host := stripScheme origin
  if unlim host then (none, hosts)
  else
    let count := rlGet hosts host + 1
    if count > maxRequestsPerPeriod then
      (some (rateLimitMessage maxRequestsPerPeriod periodInMinutes), hosts)
    else (none, rlSet hosts host count)

/-- `n` successive checker calls with the same origin starting from the
mapping `st`; the first component is the result of the `n`-th call. -/
def rlRunFrom (maxRequestsPerPeriod periodInMinutes : Nat)
    (unlim : String → Bool) (origin : String) (st : AccessedHosts) :
    Nat → Option String × AccessedHosts
  | 0 => (none, st)
  | n + 1 =>
    let r := rlRunFrom maxRequestsPerPeriod periodInMinutes unlim origin st n
    checkRateLimitStep maxRequestsPerPeriod periodInMinutes unlim r.2 origin

/-! ### getHandler (src/corsProxy.ts lines 397-550)

The `isValidHostName` predicate of utils.ts tests
`TOP_LEVEL_DOMAIN_REGEX` from constants.ts, a file not part of the
sources here, plus the platform IPv4/IPv6 recognizers; the handler
therefore takes the whole predicate as the parameter `isValidHostName`.
Every claim about the handler is quantified over it or instantiates it.
The forwarding state handed to `proxyRequest` mirrors the `CorsState`
type (the `getProxyForUrl` member is carried separately as a
`ProxyEnv`). -/

structure CorsState where
  location : URLRec
  proxyBaseUrl : String
  maxRedirects : Nat
  redirectCount : Nat
  corsMaxAge : Nat
  deriving Repr

/-- The recognized options, with the merged defaults of
`defaultHandlerOptions` (`requireHeader` keeps its `string | string[] |
null` shape). -/
structure CorsProxyOptions where
  handleInitialRequest : Option (Request → Option URLRec → Bool)
  maxRedirects : Nat
  originBlacklist : List String
  originWhitelist : List String
  checkRateLimit : Option (String → Option String)
  redirectSameOrigin : Bool
  requireHeader : Option (Sum String (List String))
  removeHeaders : List String
  setHeaders : Headers
  corsMaxAge : Nat

def defaultHandlerOptions : CorsProxyOptions :=
  { handleInitialRequest := none
    maxRedirects := 5
    originBlacklist := []
    originWhitelist := []
    checkRateLimit := none
    redirectSameOrigin := false
    requireHeader := none
    removeHeaders := []
    setHeaders := []
    corsMaxAge := 0 }

/-- `toLowerCase()` over the character list (the string is ASCII header
material here). -/
def jsToLower (s : String) : String :=
  String.mk (s.data.map Char.toLower)

/-- `requireHeader ?? []`, a lone string lower-cased and wrapped, then
every entry lower-cased. -/
def requiredHeaderArray (requireHeader : Option (Sum String (List String))) :
    List String :=
  (match requireHeader with
   | none => []
   | some (.inl s) => [jsToLower s]
   | some (.inr l) => l).map jsToLower

/-- `hasRequiredHeaders` of the source: `!requiredHeaderArray` is always
false in JavaScript (an array, even empty, is truthy), so the result is
`requiredHeaderArray.some(name => headers[name])`. -/
def hasRequiredHeaders (arr : List String) (headers : Headers) : Bool :=
  arr.any (fun headerName => jsTruthy (hGet headers headerName))

/-- The test `/^\/https?:\/[^/]/i` of the missing-slash special case. -/
def missingSlashTest (u : String) : Bool :=
  let l := u.data.map Char.toLower
  (startsWithSeq l "/http:/".data && !(startsWithSeq l "/http://".data)
     && decide (7 < l.length)) ||
  (startsWithSeq l "/https:/".data && !(startsWithSeq l "/https://".data)
     && decide (8 < l.length))

/-- The test `/^\/https?:/` (no ignore-case flag) guarding host
validation. -/
def startsWithHttpScheme (u : String) : Bool :=
  startsWithSeq u.data "/http:".data || startsWithSeq u.data "/https:".data

def isJsWhitespace (c : Char) : Bool :=
  c ∈ [' ', '\t', '\n', '\r', '\x0b', '\x0c']

/-- The test `/^\s*https/` on `x-forwarded-proto` (an absent header
stringifies to "undefined", which does not match). -/
def xfpIsHttps (v : Option String) : Bool :=
  match v with
  | some s => startsWithSeq (s.data.dropWhile isJsWhitespace) "https".data
  | none => false

/-- `Number(location.port)`: the WHATWG port serialization is "" (gives
0) or canonical decimal digits. -/
def jsPortNumber (port : String) : Nat :=
  if port.data.all isDigitChar then natOfDigits port.data else 0

/-- What the handler does with an inbound request before any outbound
call.  `.exception` is an uncaught throw (from `parseURL`),
`.invalidApiCall` the bare `return` for a request that is not an API
call, `.response` a locally written response (status, optional status
message, headers, optional body), `.proxied` the hand-off to
`proxyRequest` with the outbound request and fresh forwarding state. -/
inductive HandlerResult where
  | exception (msg : String)
  | handled
  | response (status : Nat) (statusMessage : Option String)
      (headers : Headers) (body : Option String)
  | invalidApiCall
  | proxied (request : Request) (corsState : CorsState)
  deriving Repr

/-- `JavaScript string + requireHeader` in the header-required body:
null prints "null", an array joins with commas. -/
def showRequireHeader : Option (Sum String (List String)) → String
  | none => "null"
  | some (.inl s) => s
  | some (.inr l) => String.intercalate "," l

/-- `corsOptions.handleInitialRequest?.(request, response, location)`:
an absent callback is falsy. -/
def jsOptCall (g : Option (Request → Option URLRec → Bool))
    (request : Request) (location : Option URLRec) : Bool :=
  match g with
  | some f => f request location
  | none => false

/-- `corsOptions.checkRateLimit && corsOptions.checkRateLimit(origin)`:
an absent checker yields no message. -/
def jsCallRateLimit (c : Option (String → Option String))
    (origin : String) : Option String :=
  match c with
  | some f => f origin
  | none => none

/-- The origin-policy stage of the handler (src/corsProxy.ts lines
474-549): blacklist, whitelist, rate limit, same-origin shortcut, then
hand-off to `proxyRequest`.  The JavaScript `let origin` binding is
inlined at each of its uses (the read is pure). -/
def handleOriginPolicy (corsOptions : CorsProxyOptions)
    (corsHeaders : Headers) (request : Request) (location : URLRec) :
    HandlerResult :=
  if corsOptions.originBlacklist.contains
      ((hGet request.headers "origin").getD "") then
    .response 403 (some "Forbidden") corsHeaders
      (some ("The origin \"" ++ (hGet request.headers "origin").getD ""
        ++ "\" was blacklisted by the operator of this proxy."))
  else if decide (0 < corsOptions.originWhitelist.length)
      && !(corsOptions.originWhitelist.contains
        ((hGet request.headers "origin").getD "")) then
    .response 403 (some "Forbidden") corsHeaders
      (some ("The origin \"" ++ (hGet request.headers "origin").getD ""
        ++ "\" was not whitelisted by the operator of this proxy."))
  else if jsTruthy (jsCallRateLimit corsOptions.checkRateLimit
      ((hGet request.headers "origin").getD "")) then
    .response 429 (some "Too Many Requests") corsHeaders
      (some ("The origin \"" ++ (hGet request.headers "origin").getD ""
        ++ "\" has sent too many requests.\n"
        ++ (jsCallRateLimit corsOptions.checkRateLimit
            ((hGet request.headers "origin").getD "")).getD ""))
  else if corsOptions.redirectSameOrigin
      && !((hGet request.headers "origin").getD "" == "")
      && (location.href.data.drop
          ((hGet request.headers "origin").getD "").length).take 1 == ['/']
      && startsWithSeq location.href.data
        ((hGet request.headers "origin").getD "").data then
    .response 301 (some "Please use a direct request")
      (hSet (hSet (hSet corsHeaders "vary" "origin")
        "cache-control" "private") "location" location.href) none
  else
    .proxied
      { request with
          headers := corsOptions.setHeaders.foldl
            (fun acc kv => hSet acc kv.1 kv.2)
            (corsOptions.removeHeaders.foldl hDel request.headers) }
      { location := location
        proxyBaseUrl :=
          (if xfpIsHttps (hGet request.headers "x-forwarded-proto")
           then "https://" else "http://")
          ++ (hGet request.headers "host").getD "undefined"
        maxRedirects := corsOptions.maxRedirects
        redirectCount := 0
        corsMaxAge := corsOptions.corsMaxAge }

/-- The target-validation stage of the handler (src/corsProxy.ts lines
448-472): port bound, host-name check, required headers, then the
origin-policy stage. -/
def handleLocation (corsOptions : CorsProxyOptions)
    (isValidHostName : String → Bool) (corsHeaders : Headers)
    (request : Request) (location : URLRec) : HandlerResult :=
  if jsPortNumber location.port > 65535 then
    .response 400 (some "Invalid port") corsHeaders
      (some ("Port number too large: " ++ location.port))
  else if !(startsWithHttpScheme (request.url.getD ""))
      && !(isValidHostName location.hostname) then
    .response 404 (some "Invalid host") corsHeaders
      (some ("Invalid host: " ++ location.hostname))
  else if !(hasRequiredHeaders
      (requiredHeaderArray corsOptions.requireHeader) request.headers) then
    .response 400 (some "Header required") corsHeaders
      (some ("Missing required request header. Must specify one of: "
        ++ showRequireHeader corsOptions.requireHeader))
  else handleOriginPolicy corsOptions corsHeaders request location

/-- The body of the handler after `parseURL` has produced `location`
(src/corsProxy.ts lines 423-549).  `corsHeaders` and `request` are the
results of the `withCORS` call at handler entry. -/
def getHandlerCore (corsOptions : CorsProxyOptions)
    (isValidHostName : String → Bool) (corsHeaders : Headers)
    (request : Request) (location : Option URLRec) : HandlerResult :=
  if jsOptCall corsOptions.handleInitialRequest request location then .handled
  else if request.method == "OPTIONS" then
    .response 200 none corsHeaders none
  else
    match location with
    | none =>
      if missingSlashTest (request.url.getD "") then
        .response 400 (some "Missing slash") corsHeaders
          (some "The URL is invalid: two slashes are needed after the http(s):.")
      else .invalidApiCall
    | some location =>
      handleLocation corsOptions isValidHostName corsHeaders request location

def getHandler (corsOptions : CorsProxyOptions)
    (isValidHostName : String → Bool) (request₀ : Request) : HandlerResult :=
  let p := withCORS [] request₀ corsOptions.corsMaxAge
  match parseURL (p.2.url.map (fun u => u.drop 1)) with
  | .error e => .exception e
  | .ok location =>
    getHandlerCore corsOptions isValidHostName p.1 p.2 location

/-! ### The Forwarder (proxyRequest / onProxyResponse /
handleRedirectStatus, src/corsProxy.ts lines 273-395)

An upstream response is observed head-first: status code and headers.
One `proxyRequest` call consults `getProxyForUrl` and sends one outbound
request; the response is processed by `onProxyResponse`, which either
finalizes or re-enters `proxyRequest` on the redirect target.  We drive
the loop with the list of successive upstream responses and count the
outbound attempts. -/

/-- Modelled from the spec: `REDIRECT_STATUSES` is imported from
`./constants`, a file that is not among the sources; section 4.5 of the
specification names 301/302/303 as the
auto-followed redirect codes and deliberately excludes 307/308 from
being followed (they are still redirects, so they reach the
Location-rewriting branch rather than the finalize-with-CORS branch). -/
def REDIRECT_STATUSES : List Nat := [301, 302, 303, 307, 308]

/-- The head of an upstream response (`proxyRes`). -/
structure UpResp where
  statusCode : Nat
  headers : Headers
  deriving Repr

/-- What one `onProxyResponse` invocation decides: follow the redirect
with a new outbound request, finalize with the given response headers,
or propagate an uncaught throw.  `res` is the server response object on
which `res.setHeader` accumulates the debug headers. -/
inductive ProxyStep where
  | follow (req : Request) (corsState : CorsState) (res : Headers)
  | finalize (headers : Headers) (res : Headers)
  | thrown
  deriving Repr

def handleRedirectStatus (proxyRes : UpResp) (req : Request)
    (res : Headers) (corsState : CorsState) : ProxyStep :=
  let statusCode := proxyRes.statusCode
  match hGet proxyRes.headers "location" with
  | none => .finalize proxyRes.headers res
  | some locationHeader₀ =>
    if locationHeader₀ == "" then .finalize proxyRes.headers res
    else
      match resolveURL locationHeader₀ corsState.location with
      | none => .thrown
      | some resolved =>
        let locationHeader := resolved.href
        match parseURL (some locationHeader) with
        | .error _ => .thrown
        | .ok none =>
          -- parsedLocation is null: the whole if-block is skipped and
          -- the headers are left untouched.
          .finalize proxyRes.headers res
        | .ok (some parsedLocation) =>
          if (statusCode == 301) || (statusCode == 302) || (statusCode == 303) then
            let redirectCount := corsState.redirectCount + 1
            if redirectCount ≤ corsState.maxRedirects then
              .follow
                { req with
                    method := "GET"
                    headers := hDel (hSet req.headers "content-length" "0")
                      "content-type" }
                { corsState with
                    redirectCount := redirectCount
                    location := parsedLocation }
                (hSet res ("X-CORS-Redirect-" ++ toString redirectCount)
                  (toString statusCode ++ " " ++ locationHeader))
            else
              .finalize
                (hSet proxyRes.headers "location"
                  (corsState.proxyBaseUrl ++ "/" ++ locationHeader)) res
          else
            .finalize
              (hSet proxyRes.headers "location"
                (corsState.proxyBaseUrl ++ "/" ++ locationHeader)) res

def onProxyResponse (proxyRes : UpResp) (req : Request) (res : Headers)
    (corsState : CorsState) : ProxyStep :=
  let res :=
    if corsState.redirectCount == 0 then
      hSet res "x-request-url" corsState.location.href
    else res
  if REDIRECT_STATUSES.contains proxyRes.statusCode then
    handleRedirectStatus proxyRes req res corsState
  else
    let headers := hSet proxyRes.headers "x-final-url" corsState.location.href
    .finalize (withCORS headers req corsState.corsMaxAge).1 res

/-- Outcome of the forwarding loop: the finalized response (status,
response headers, accumulated `res.setHeader` headers, number of
outbound attempts), a still-pending wait on the transport when the
supplied response list is exhausted, or an uncaught throw. -/
inductive RunResult where
  | finalized (status : Nat) (headers : Headers) (res : Headers)
      (attempts : Nat)
  | pending (attempts : Nat)
  | thrown
  deriving Repr

/-- The forwarding loop: each list element is the upstream response to
the next outbound attempt. -/
def runProxy (env : ProxyEnv) (req : Request) (corsState : CorsState)
    (res : Headers) (attempts : Nat) : List UpResp → RunResult
  | [] => .pending attempts
  | proxyRes :: rest =>
    match getProxyForUrl env corsState.location.href with
    | .error _ => .thrown
    | .ok _ =>
      match onProxyResponse proxyRes req res corsState with
      | .thrown => .thrown
      | .finalize headers res =>
        .finalized proxyRes.statusCode headers res (attempts + 1)
      | .follow req cs res => runProxy env req cs res (attempts + 1) rest

/-! ### Concrete fixtures used in the claim theorems -/

/-- No proxy-related environment configuration at all. -/
def envEmpty : ProxyEnv := ⟨none, none, none, none⟩

/-- The target resolved from the inbound path `/example.com/a`. -/
def targetURL : URLRec :=
  { protocol := "http:", hostname := "example.com", port := ""
    pathname := "/a", search := "" }

/-- The target of each redirect hop. -/
def nextURL : URLRec :=
  { protocol := "http:", hostname := "example.com", port := ""
    pathname := "/next", search := "" }

/-- The inbound request driving the redirect chain. -/
def chainReq : Request := ⟨"GET", some "/example.com/a", []⟩

/-- A redirect response with status `s` and a resolvable absolute
Location. -/
def redirResp (s : Nat) : UpResp :=
  ⟨s, [("location", "http://example.com/next")]⟩

/-- The final non-redirect upstream response. -/
def okResp : UpResp := ⟨200, [("content-type", "text/plain")]⟩

/-- `parseURL("http://example.com:443/a?b=1")`: explicit scheme kept,
explicit non-default port kept. -/
def httpPort443URL : URLRec := ⟨"http:", "example.com", "443", "/a", "?b=1"⟩

/-- `parseURL("example.com:443/a")`: scheme inferred `https:`, port 443
dropped as the https default. -/
def httpsInferredURL : URLRec := ⟨"https:", "example.com", "", "/a", ""⟩

/-! ## Theorems -/

theorem hGet_hSet_self (hs : Headers) (k v : String) :
    hGet (hSet hs k v) k = some v := by
  induction hs with
  | nil => simp [hGet, hSet, List.find?]
  | cons p t ih =>
    by_cases hp : (p.1 == k) = true
    · simp [hGet, hSet, hp, List.find?]
    · simp only [Bool.not_eq_true] at hp
      simp only [hSet, hp, Bool.false_eq_true, if_false]
      simpa [hGet, List.find?, hp] using ih

theorem hGet_hSet_ne (hs : Headers) (k k' v : String) (hne : k' ≠ k) :
    hGet (hSet hs k' v) k = hGet hs k := by
  have hkk : (k' == k) = false := by
    cases h : (k' == k) with
    | true => exact absurd (by simpa using h) hne
    | false => rfl
  induction hs with
  | nil => simp [hGet, hSet, List.find?, hkk]
  | cons p t ih =>
    by_cases hp : (p.1 == k') = true
    · have hp1 : p.1 = k' := by simpa using hp
      simp [hGet, hSet, hp, List.find?, hp1, hkk]
    · simp only [Bool.not_eq_true] at hp
      simp only [hSet, hp, Bool.false_eq_true, if_false]
      by_cases hq : (p.1 == k) = true
      · simp [hGet, List.find?, hq]
      · simp only [Bool.not_eq_true] at hq
        simpa [hGet, List.find?, hq] using ih

theorem hGet_hDel_ne (hs : Headers) (k k' : String) (hne : k' ≠ k) :
    hGet (hDel hs k') k = hGet hs k := by
  induction hs with
  | nil => simp [hGet, hDel]
  | cons p t ih =>
    by_cases hp : (p.1 == k') = true
    · have hp1 : p.1 = k' := by simpa using hp
      have hk : (p.1 == k) = false := by
        rw [hp1]
        cases h : (k' == k) with
        | true => exact absurd (by simpa using h) hne
        | false => rfl
      simpa [hGet, hDel, List.filter, hp, List.find?, hk] using ih
    · simp only [Bool.not_eq_true] at hp
      by_cases hq : (p.1 == k) = true
      · simp [hGet, hDel, List.filter, hp, List.find?, hq]
      · simp only [Bool.not_eq_true] at hq
        simpa [hGet, hDel, List.filter, hp, List.find?, hq] using ih

theorem keys_hSet_of_none (hs : Headers) (k v : String)
    (h : hGet hs k = none) :
    (hSet hs k v).map Prod.fst = hs.map Prod.fst ++ [k] := by
  induction hs with
  | nil => simp [hSet]
  | cons p t ih =>
    by_cases hp : (p.1 == k) = true
    · simp [hGet, List.find?, hp] at h
    · simp only [Bool.not_eq_true] at hp
      simp only [hGet, List.find?, hp] at h
      simp only [hSet, hp, Bool.false_eq_true, if_false, List.map_cons,
        List.cons_append, List.cons.injEq, true_and]
      exact ih h

theorem mirrorHeader_fst_hGet (resKey reqKey : String) (p : Headers × Headers)
    (k : String) (h : k ≠ resKey) :
    hGet (mirrorHeader resKey reqKey p).1 k = hGet p.1 k := by
  unfold mirrorHeader
  split
  · exact hGet_hSet_ne _ _ _ _ (Ne.symm h)
  · rfl

theorem mirrorHeader_snd_hGet (resKey reqKey : String) (p : Headers × Headers)
    (k : String) (h : k ≠ reqKey) :
    hGet (mirrorHeader resKey reqKey p).2 k = hGet p.2 k := by
  unfold mirrorHeader
  split
  · exact hGet_hDel_ne _ _ _ (Ne.symm h)
  · rfl

/-- The response headers returned by `withCORS` always carry
`access-control-allow-origin: *`. -/
theorem withCORS_acao (headers : Headers) (request : Request)
    (corsMaxAge : Nat) :
    hGet (withCORS headers request corsMaxAge).1
      "access-control-allow-origin" = some "*" := by
  unfold withCORS
  simp only []
  rw [hGet_hSet_ne _ _ _ _ (by decide),
    mirrorHeader_fst_hGet _ _ _ _ (by decide),
    mirrorHeader_fst_hGet _ _ _ _ (by decide)]
  split
  · rw [hGet_hSet_ne _ _ _ _ (by decide)]
    exact hGet_hSet_self _ _ _
  · exact hGet_hSet_self _ _ _

/-- `withCORS` does not change the request method. -/
theorem withCORS_method (headers : Headers) (request : Request)
    (corsMaxAge : Nat) :
    (withCORS headers request corsMaxAge).2.method = request.method := rfl

/-- `withCORS` does not change the request url. -/
theorem withCORS_url (headers : Headers) (request : Request)
    (corsMaxAge : Nat) :
    (withCORS headers request corsMaxAge).2.url = request.url := rfl

/-- Claim C1.  The first half of the claim (a non-empty `requireHeader`
list with none of its names on the request gives 400) matches the code,
but the second half does not: with `requireHeader` absent (the default,
`null`), `requireHeader ?? []` is the empty array, `!requiredHeaderArray`
is always false (an array is truthy), and `[].some(...)` is false, so
EVERY admissible request is rejected with 400 "Header required".  This
theorem evaluates the handler at such a request: default options
(`requireHeader` absent), a GET for `/example.com/` whose target
resolves, port and host fine, and yet the response is
400 "Header required". -/
theorem c1_requireHeader_absent_still_rejects :
    getHandler defaultHandlerOptions (fun _ => true)
      ⟨"GET", some "/example.com/", [("origin", "http://foo.example")]⟩
      = .response 400 (some "Header required")
          [("access-control-allow-origin", "*"),
           ("access-control-expose-headers", "access-control-allow-origin")]
          (some "Missing required request header. Must specify one of: null")
    := rfl

/-- Claim C2.  The code inverts the no-proxy logic: `getProxyForUrl`
returns `null` exactly when `shouldProxyUrl` is true.  Since
`shouldProxyUrl` is true when `NO_PROXY` is unset and false when
`NO_PROXY` is `*`, the wildcard ENABLES forwarding (first conjunct: with
`NO_PROXY=*` and `ALL_PROXY` set, the proxy endpoint is returned) and an
absent no-proxy configuration DISABLES it (second conjunct: with only
`HTTP_PROXY` set, `null` is returned for an http target) — the opposite
of the claim on both sides. -/
theorem c2_no_proxy_logic_inverted :
    getProxyForUrl ⟨some "*", none, none, some "http://proxy.example:1234"⟩
        "http://example.com/" = .ok (some "http://proxy.example:1234") ∧
    getProxyForUrl ⟨none, some "http://proxy.example:1234", none, none⟩
        "http://example.com/" = .ok none := ⟨rfl, rfl⟩

/-- Claim C3.  For a path embedding a port above 65535 the handler never
reaches its 400 "Invalid port" branch: `parseURL` builds
`http://example.com:99999/x` and hands it to the WHATWG `URL`
constructor, which throws `TypeError` on any port above 65535; the
exception propagates out of the handler uncaught (first conjunct:
`parseURL` throws; second conjunct: the handler outcome is the
uncaught exception, not a 400 response). -/
theorem c3_invalid_port_throws_instead_of_400 :
    parseURL (some "example.com:99999/x") = .error "Invalid URL" ∧
    getHandler defaultHandlerOptions (fun _ => true)
      ⟨"GET", some "/example.com:99999/x", []⟩ = .exception "Invalid URL"
    := ⟨rfl, rfl⟩

/-- Claim C8.  `getProxyForUrl` is not total: a no-proxy list containing
a bare host entry makes `new URL(domain)` throw (a bare host has no
scheme), so the whole call throws (first conjunct).  The second conjunct
records the part of the claim that does hold: with no proxy
configuration at all the result is `null`. -/
theorem c8_bare_no_proxy_entry_throws :
    getProxyForUrl ⟨some "example.com", none, none, none⟩
        "http://example.com/" = .error "Invalid URL" ∧
    getProxyForUrl envEmpty "http://example.com/" = .ok none := ⟨rfl, rfl⟩

/-- Claim C9, counterexample.  `withCORS` computes the expose list
BEFORE adding `access-control-expose-headers` itself, so the returned
map contains a header (`access-control-expose-headers`) whose name is
not listed in that header's value: for a plain GET request and empty
initial headers the returned keys are
`access-control-allow-origin, access-control-expose-headers` but the
expose value is only `access-control-allow-origin`. -/
theorem c9_expose_counterexample :
    hGet (withCORS [] ⟨"GET", some "/example.com/", []⟩ 0).1
        "access-control-expose-headers" = some "access-control-allow-origin" ∧
    (withCORS [] ⟨"GET", some "/example.com/", []⟩ 0).1.map Prod.fst
      = ["access-control-allow-origin", "access-control-expose-headers"] ∧
    (jsSplitComma "access-control-allow-origin").contains
        "access-control-expose-headers" = false := ⟨rfl, rfl, by decide⟩

/-- Claim C9, amended: after `withCORS` returns, the value of
`access-control-expose-headers` lists the name of every header present
on the returned map EXCEPT `access-control-expose-headers` itself
(provided it was not already present on entry): the returned key list is
the prior keys followed by `access-control-expose-headers`, and the
value is exactly the comma-join of those prior keys — which include the
access-control headers set during the same call. -/
theorem c9_expose_lists_prior_headers (headers : Headers)
    (request : Request) (corsMaxAge : Nat)
    (h : hGet headers "access-control-expose-headers" = none) :
    ∃ ks, (withCORS headers request corsMaxAge).1.map Prod.fst
        = ks ++ ["access-control-expose-headers"] ∧
      hGet (withCORS headers request corsMaxAge).1
          "access-control-expose-headers"
        = some (String.intercalate "," ks) := by
  unfold withCORS
  simp only []
  refine ⟨_, keys_hSet_of_none _ _ _ ?_, ?_⟩
  · rw [mirrorHeader_fst_hGet _ _ _ _ (by decide),
      mirrorHeader_fst_hGet _ _ _ _ (by decide)]
    split
    · rw [hGet_hSet_ne _ _ _ _ (by decide),
        hGet_hSet_ne _ _ _ _ (by decide)]
      exact h
    · rw [hGet_hSet_ne _ _ _ _ (by decide)]
      exact h
  · exact hGet_hSet_self _ _ _

/-- Witness for the amended Claim C9 at a concrete call: empty initial
headers, a GET request carrying `access-control-request-method: PUT`,
`corsMaxAge = 0`. -/
theorem c9_expose_lists_prior_headers_witness :
    ∃ ks, (withCORS [] ⟨"GET", some "/example.com/",
          [("access-control-request-method", "PUT")]⟩ 0).1.map Prod.fst
        = ks ++ ["access-control-expose-headers"] ∧
      hGet (withCORS [] ⟨"GET", some "/example.com/",
          [("access-control-request-method", "PUT")]⟩ 0).1
          "access-control-expose-headers"
        = some (String.intercalate "," ks) :=
  c9_expose_lists_prior_headers []
    ⟨"GET", some "/example.com/", [("access-control-request-method", "PUT")]⟩
    0 rfl

/-- `withCORS` only deletes the two `access-control-request-*` keys from
the request headers; every other header is preserved. -/
theorem withCORS_req_hGet (headers : Headers) (request : Request)
    (corsMaxAge : Nat) (k : String)
    (h1 : k ≠ "access-control-request-method")
    (h2 : k ≠ "access-control-request-headers") :
    hGet (withCORS headers request corsMaxAge).2.headers k
      = hGet request.headers k := by
  unfold withCORS
  simp only []
  rw [mirrorHeader_snd_hGet _ _ _ _ h2, mirrorHeader_snd_hGet _ _ _ _ h1]

/-! ### Rate limiter lemmas (Claim C5) -/

theorem rlGet_rlSet_self (hosts : AccessedHosts) (h : String) (n : Nat) :
    rlGet (rlSet hosts h n) h = n := by
  induction hosts with
  | nil => simp [rlGet, rlSet, List.find?]
  | cons p t ih =>
    by_cases hp : (p.1 == h) = true
    · simp [rlGet, rlSet, hp, List.find?]
    · simp only [Bool.not_eq_true] at hp
      simp only [rlSet, hp, Bool.false_eq_true, if_false]
      simpa [rlGet, List.find?, hp] using ih

/-- After `n` checker calls for the same (rate-limited) origin starting
from the fresh mapping, the stored count is `min n max`: the count is
only persisted while it does not exceed the maximum. -/
theorem rlRunFrom_count (maxR per : Nat) (unlim : String → Bool)
    (origin : String) (h : unlim (stripScheme origin) = false) (n : Nat) :
    rlGet (rlRunFrom maxR per unlim origin resetHosts n).2 (stripScheme origin)
      = min n maxR := by
  induction n with
  | zero => simp [rlRunFrom, resetHosts, rlGet]
  | succ n ih =>
    simp only [rlRunFrom, checkRateLimitStep, h, Bool.false_eq_true, if_false]
    rw [ih]
    by_cases hc : n < maxR
    · rw [if_neg (by omega)]
      simp only []
      rw [rlGet_rlSet_self]
      omega
    · rw [if_pos (by omega)]
      simp only []
      rw [ih]
      omega

/-- The rate-limit message is never the empty string. -/
theorem rateLimitMessage_ne_empty (maxR per : Nat) :
    rateLimitMessage maxR per ≠ "" := by
  intro hEq
  have hlen := congrArg String.length hEq
  have h1 : ("The number of requests is limited to " : String).length = 37 := rfl
  have h0 : ("" : String).length = 0 := rfl
  simp only [rateLimitMessage, String.length_append, h1, h0] at hlen
  omega

/-- Claim C5.  For every origin whose (scheme-stripped) host does not
match the unlimited pattern, starting from the fresh counter mapping
(`resetHosts`, which is both the initial mapping and the one installed
by every periodic reset, so counting always restarts from zero after a
reset), the `j`-th checker call returns no message exactly when
`j ≤ max`, and from the `(max+1)`-th call onward it returns the
(non-empty) rate-limit message. -/
theorem c5_rate_limit_counting (maxR per : Nat) (unlim : String → Bool)
    (origin : String) (h : unlim (stripScheme origin) = false)
    (j : Nat) (hj : 1 ≤ j) :
    ((rlRunFrom maxR per unlim origin resetHosts j).1
      = if j ≤ maxR then none else some (rateLimitMessage maxR per)) ∧
    rateLimitMessage maxR per ≠ "" := by
  refine ⟨?_, rateLimitMessage_ne_empty maxR per⟩
  obtain ⟨i, rfl⟩ : ∃ i, j = i + 1 := ⟨j - 1, by omega⟩
  simp only [rlRunFrom, checkRateLimitStep, h, Bool.false_eq_true, if_false]
  rw [rlRunFrom_count maxR per unlim origin h i]
  by_cases hc : i < maxR
  · rw [if_neg (by omega), if_pos (by omega)]
  · rw [if_pos (by omega), if_neg (by omega)]

/-- Witness for Claim C5: `max = 2`, period 5 minutes, no unlimited
hosts, origin `http://a.com`; the third call is the first rejected
one. -/
theorem c5_rate_limit_counting_witness :
    ((rlRunFrom 2 5 (fun _ => false) "http://a.com" resetHosts 3).1
      = if 3 ≤ 2 then none else some (rateLimitMessage 2 5)) ∧
    rateLimitMessage 2 5 ≠ "" :=
  c5_rate_limit_counting 2 5 (fun _ => false) "http://a.com" rfl 3
    (by omega)

/-! ### parseURL scheme-inference lemmas (Claim C7) -/

theorem matchSeq_append (pat : List Char) :
    ∀ l, matchSeq pat l = true → l = pat ++ l.drop pat.length := by
  induction pat with
  | nil => intro l _; simp
  | cons p ps ih =>
    intro l h
    cases l with
    | nil => simp [matchSeq] at h
    | cons c cs =>
      simp only [matchSeq, Bool.and_eq_true, beq_iff_eq] at h
      obtain ⟨rfl, h2⟩ := h
      simp only [List.cons_append, List.length_cons, List.drop_succ_cons,
        List.cons.injEq, true_and]
      exact ih cs h2

/-- A successful `specialURL` parse carries the given scheme. -/
theorem specialURL_protocol (scheme : String) (dflt : Nat) (rest : List Char)
    (u : URLRec) (h : specialURL scheme dflt rest = some u) :
    u.protocol = scheme ++ ":" := by
  unfold specialURL at h
  simp only [] at h
  split at h
  · exact absurd h (by simp)
  · split at h
    · exact absurd h (by simp)
    · simp only [Option.some.injEq] at h
      subst h
      rfl

theorem newURL_data (s : String) : newURL s = newURLCore s.data := rfl

theorem newURLCore_http (l : List Char) :
    newURLCore ("http:".data ++ l) = specialURL "http" 80 l := rfl

theorem newURLCore_https (l : List Char) :
    newURLCore ("https:".data ++ l) = specialURL "https" 443 l := rfl

theorem parseURL_eq_of_scheme (r : String) (m : RawMatch) (sch : String)
    (hne : (r == "") = false) (hm : regexMatch r = some m)
    (hs : m.scheme = some sch) :
    parseURL (some r) = finishParse r := by
  unfold parseURL
  simp only [hne, Bool.false_eq_true, if_false, hm, hs]

theorem parseURL_eq_of_noScheme (r : String) (m : RawMatch)
    (hne : (r == "") = false) (hm : regexMatch r = some m)
    (hs : m.scheme = none) :
    parseURL (some r) = parseURLNoScheme r m := by
  unfold parseURL
  simp only [hne, Bool.false_eq_true, if_false, hm, hs]

/-- Claim C7.  Scheme inference of `parseURL`:
(1) an input carrying an explicit `http://` scheme parses with protocol
`http:` whatever its port — in particular port 443 does not override the
explicit scheme; (2) an input with no scheme whose regex port group is
`443` parses with protocol `https:`; (3) an input with no scheme and any
other port group parses with protocol `http:`. -/
theorem c7_scheme_inference :
    (∀ (r : String) (u : URLRec),
        startsWithSeq r.data "http://".data = true →
        parseURL (some r) = .ok (some u) → u.protocol = "http:") ∧
    (∀ (r : String) (m : RawMatch) (u : URLRec),
        regexMatch r = some m → m.scheme = none → m.port = some "443" →
        parseURL (some r) = .ok (some u) → u.protocol = "https:") ∧
    (∀ (r : String) (m : RawMatch) (u : URLRec) (p : String),
        regexMatch r = some m → m.scheme = none → m.port = some p →
        (p == "443") = false →
        parseURL (some r) = .ok (some u) → u.protocol = "http:") := by
  refine ⟨?_, ?_, ?_⟩
  · intro r u h hp
    obtain ⟨d⟩ := r
    obtain ⟨rest, rfl⟩ : ∃ rest, d = "http://".data ++ rest :=
      ⟨d.drop 7, matchSeq_append _ _ h⟩
    have hne : (String.mk ("http://".data ++ rest) == "") = false := rfl
    cases hm : regexMatch (String.mk ("http://".data ++ rest)) with
    | none =>
      unfold parseURL at hp
      simp only [hne, Bool.false_eq_true, if_false, hm] at hp
      exact absurd hp (by simp)
    | some m =>
      cases hsch : m.scheme with
      | some sch =>
        rw [parseURL_eq_of_scheme _ _ _ hne hm hsch] at hp
        unfold finishParse at hp
        cases hn : newURL (String.mk ("http://".data ++ rest)) with
        | none => rw [hn] at hp; exact absurd hp (by simp)
        | some parsed =>
          rw [hn] at hp
          simp only [] at hp
          split at hp
          · exact absurd hp (by simp)
          · simp only [Except.ok.injEq, Option.some.injEq] at hp
            subst hp
            have h2 : specialURL "http" 80 ('/' :: '/' :: rest) = some parsed := hn
            exact specialURL_protocol _ _ _ _ h2
      | none =>
        rw [parseURL_eq_of_noScheme _ _ hne hm hsch] at hp
        unfold parseURLNoScheme at hp
        have hci : (ciStartsWith (String.mk ("http://".data ++ rest)) "http:"
            || ciStartsWith (String.mk ("http://".data ++ rest)) "https:") = true := by
          have h1 : ciStartsWith (String.mk ("http://".data ++ rest)) "http:"
              = true := rfl
          rw [h1, Bool.true_or]
        rw [hci] at hp
        exact absurd hp (by simp)
  · intro r m u hm hsch hport hp
    by_cases hr : r = ""
    · subst hr
      rw [show regexMatch "" = none from rfl] at hm
      exact absurd hm (by simp)
    · have hne : (r == "") = false := by
        cases hEq : (r == "") with
        | true => exact absurd (by simpa using hEq) hr
        | false => rfl
      rw [parseURL_eq_of_noScheme _ _ hne hm hsch] at hp
      unfold parseURLNoScheme at hp
      split at hp
      · exact absurd hp (by simp)
      · simp only [hport] at hp
        rw [show ((some "443" : Option String) == some "443") = true from rfl,
          if_pos rfl] at hp
        set t₀ : String := if startsWithSeq r.data "//".data then r else "//" ++ r
          with ht₀
        have hfin : finishParse ("https:" ++ t₀)
            = (match specialURL "https" 443 t₀.data with
               | none => Except.error "Invalid URL"
               | some parsed =>
                 if parsed.hostname == "" then .ok none
                 else .ok (some parsed)) := by
          unfold finishParse
          rw [newURL_data, String.data_append, newURLCore_https]
        rw [hfin] at hp
        cases hn : specialURL "https" 443 t₀.data with
        | none => rw [hn] at hp; exact absurd hp (by simp)
        | some parsed =>
          rw [hn] at hp
          simp only [] at hp
          split at hp
          · exact absurd hp (by simp)
          · simp only [Except.ok.injEq, Option.some.injEq] at hp
            subst hp
            exact specialURL_protocol _ _ _ _ hn
  · intro r m u p hm hsch hport hp443 hp
    by_cases hr : r = ""
    · subst hr
      rw [show regexMatch "" = none from rfl] at hm
      exact absurd hm (by simp)
    · have hne : (r == "") = false := by
        cases hEq : (r == "") with
        | true => exact absurd (by simpa using hEq) hr
        | false => rfl
      rw [parseURL_eq_of_noScheme _ _ hne hm hsch] at hp
      unfold parseURLNoScheme at hp
      split at hp
      · exact absurd hp (by simp)
      · simp only [hport] at hp
        rw [show ((some p : Option String) == some "443") = (p == "443") from rfl,
          hp443] at hp
        rw [if_neg (by simp)] at hp
        set t₀ : String := if startsWithSeq r.data "//".data then r else "//" ++ r
          with ht₀
        have hfin : finishParse ("http:" ++ t₀)
            = (match specialURL "http" 80 t₀.data with
               | none => Except.error "Invalid URL"
               | some parsed =>
                 if parsed.hostname == "" then .ok none
                 else .ok (some parsed)) := by
          unfold finishParse
          rw [newURL_data, String.data_append, newURLCore_http]
        rw [hfin] at hp
        cases hn : specialURL "http" 80 t₀.data with
        | none => rw [hn] at hp; exact absurd hp (by simp)
        | some parsed =>
          rw [hn] at hp
          simp only [] at hp
          split at hp
          · exact absurd hp (by simp)
          · simp only [Except.ok.injEq, Option.some.injEq] at hp
            subst hp
            exact specialURL_protocol _ _ _ _ hn

/-- Witness for Claim C7 at the round-trip inputs of the specification:
`http://example.com:443/a?b=1` (explicit scheme and port 443) keeps
protocol `http:`, and `example.com:443/a` (no scheme, port 443) gets
protocol `https:`. -/
theorem c7_scheme_inference_witness :
    httpPort443URL.protocol = "http:" ∧
    parseURL (some "http://example.com:443/a?b=1")
      = .ok (some httpPort443URL) ∧
    httpsInferredURL.protocol = "https:" ∧
    parseURL (some "example.com:443/a") = .ok (some httpsInferredURL) :=
  ⟨c7_scheme_inference.1 "http://example.com:443/a?b=1" httpPort443URL rfl rfl,
   rfl,
   c7_scheme_inference.2.1 "example.com:443/a"
     ⟨none, "example.com", some "443"⟩ httpsInferredURL rfl rfl rfl rfl,
   rfl⟩

/-- Claim C6.  For every configuration and every admissible non-OPTIONS
request (resolvable target, port within bounds, host check passed,
required headers present) whose `Origin` header is a blacklisted origin
`O`, the handler answers 403 with the blacklist body — with no
hypothesis at all on `originWhitelist`, so the 403 stands even when `O`
is also whitelisted: the blacklist check is decided first. -/
theorem c6_blacklist_over_whitelist
    (opts : CorsProxyOptions) (isValidHostName : String → Bool)
    (req : Request) (loc : URLRec) (O : String)
    (hinit : opts.handleInitialRequest = none)
    (hmeth : (req.method == "OPTIONS") = false)
    (hparse : parseURL (req.url.map (fun u => u.drop 1)) = .ok (some loc))
    (hport : jsPortNumber loc.port ≤ 65535)
    (hhost : (!(startsWithHttpScheme (req.url.getD ""))
        && !(isValidHostName loc.hostname)) = false)
    (hreq : hasRequiredHeaders (requiredHeaderArray opts.requireHeader)
        (withCORS [] req opts.corsMaxAge).2.headers = true)
    (horigin : hGet req.headers "origin" = some O)
    (hbl : opts.originBlacklist.contains O = true) :
    getHandler opts isValidHostName req
      = .response 403 (some "Forbidden") (withCORS [] req opts.corsMaxAge).1
          (some ("The origin \"" ++ O
            ++ "\" was blacklisted by the operator of this proxy.")) := by
  have ho : hGet (withCORS [] req opts.corsMaxAge).2.headers "origin"
      = some O := by
    rw [withCORS_req_hGet _ _ _ _ (by decide) (by decide)]
    exact horigin
  unfold getHandler
  simp only []
  rw [withCORS_url, hparse]
  simp only []
  unfold getHandlerCore
  simp only [withCORS_method, hinit, hmeth, jsOptCall, Bool.false_eq_true,
    if_false]
  unfold handleLocation
  simp only [withCORS_url, hhost, hreq, Bool.not_true, Bool.false_eq_true,
    if_false]
  rw [if_neg (show ¬ (jsPortNumber loc.port > 65535) by omega)]
  unfold handleOriginPolicy
  simp only [ho, Option.getD_some, hbl, if_true]

/-- Witness for Claim C6: blacklist and whitelist both contain
`http://evil.com`; the request carries that Origin and the handler
answers 403 with the blacklist body. -/
theorem c6_blacklist_over_whitelist_witness :
    getHandler
      { defaultHandlerOptions with
          originBlacklist := ["http://evil.com"]
          originWhitelist := ["http://evil.com"]
          requireHeader := some (.inr ["origin"]) }
      (fun _ => true)
      ⟨"GET", some "/example.com/path", [("origin", "http://evil.com")]⟩
      = .response 403 (some "Forbidden")
          (withCORS []
            ⟨"GET", some "/example.com/path", [("origin", "http://evil.com")]⟩
            0).1
          (some ("The origin \"" ++ "http://evil.com"
            ++ "\" was blacklisted by the operator of this proxy.")) :=
  c6_blacklist_over_whitelist
    { defaultHandlerOptions with
        originBlacklist := ["http://evil.com"]
        originWhitelist := ["http://evil.com"]
        requireHeader := some (.inr ["origin"]) }
    (fun _ => true)
    ⟨"GET", some "/example.com/path", [("origin", "http://evil.com")]⟩
    ⟨"http:", "example.com", "", "/path", ""⟩ "http://evil.com"
    rfl rfl rfl (by decide) rfl rfl rfl rfl

/-- Every locally written response of the origin-policy stage uses the
entry CORS headers, either as passed or extended by the same-origin
redirect fields. -/
theorem handleOriginPolicy_response_headers (opts : CorsProxyOptions)
    (ch : Headers) (r : Request) (loc : URLRec) (st : Nat)
    (sm : Option String) (hs : Headers) (b : Option String)
    (h : handleOriginPolicy opts ch r loc = .response st sm hs b) :
    hs = ch ∨
      ∃ v, hs = hSet (hSet (hSet ch "vary" "origin") "cache-control"
        "private") "location" v := by
  delta handleOriginPolicy at h
  split at h
  · exact Or.inl (by injection h with h1 h2 h3 h4; exact h3.symm)
  · split at h
    · exact Or.inl (by injection h with h1 h2 h3 h4; exact h3.symm)
    · split at h
      · exact Or.inl (by injection h with h1 h2 h3 h4; exact h3.symm)
      · split at h
        · exact Or.inr ⟨loc.href,
            by injection h with h1 h2 h3 h4; exact h3.symm⟩
        · exact HandlerResult.noConfusion h

/-- Every locally written response of the target-validation stage uses
the entry CORS headers, possibly extended by the same-origin redirect
fields. -/
theorem handleLocation_response_headers (opts : CorsProxyOptions)
    (hv : String → Bool) (ch : Headers) (r : Request) (loc : URLRec)
    (st : Nat) (sm : Option String) (hs : Headers) (b : Option String)
    (h : handleLocation opts hv ch r loc = .response st sm hs b) :
    hs = ch ∨
      ∃ v, hs = hSet (hSet (hSet ch "vary" "origin") "cache-control"
        "private") "location" v := by
  delta handleLocation at h
  split at h
  · exact Or.inl (by injection h with h1 h2 h3 h4; exact h3.symm)
  · split at h
    · exact Or.inl (by injection h with h1 h2 h3 h4; exact h3.symm)
    · split at h
      · exact Or.inl (by injection h with h1 h2 h3 h4; exact h3.symm)
      · exact handleOriginPolicy_response_headers _ _ _ _ _ _ _ _ h

/-- Every locally written response of `getHandlerCore` uses the entry
CORS headers, possibly extended by the same-origin redirect fields. -/
theorem getHandlerCore_response_headers (opts : CorsProxyOptions)
    (hv : String → Bool) (ch : Headers) (r : Request)
    (loc : Option URLRec) (st : Nat) (sm : Option String) (hs : Headers)
    (b : Option String)
    (h : getHandlerCore opts hv ch r loc = .response st sm hs b) :
    hs = ch ∨
      ∃ v, hs = hSet (hSet (hSet ch "vary" "origin") "cache-control"
        "private") "location" v := by
  delta getHandlerCore at h
  split at h
  · exact HandlerResult.noConfusion h
  · split at h
    · exact Or.inl (by injection h with h1 h2 h3 h4; exact h3.symm)
    · cases loc with
      | none =>
        simp only [] at h
        split at h
        · exact Or.inl (by injection h with h1 h2 h3 h4; exact h3.symm)
        · exact HandlerResult.noConfusion h
      | some loc =>
        simp only [] at h
        exact handleLocation_response_headers _ _ _ _ _ _ _ _ _ h

/-- Claim C10.  Every response the handler writes locally — the OPTIONS
200 as well as each rejection (missing slash, invalid host, header
required, blacklist, whitelist, rate limit, same-origin redirect) —
carries the CORS headers computed at handler entry, in particular
`access-control-allow-origin: *`. -/
theorem c10_local_responses_carry_cors
    (opts : CorsProxyOptions) (isValidHostName : String → Bool)
    (req : Request) (st : Nat) (sm : Option String) (hs : Headers)
    (b : Option String)
    (h : getHandler opts isValidHostName req = .response st sm hs b) :
    hGet hs "access-control-allow-origin" = some "*" := by
  unfold getHandler at h
  simp only [] at h
  cases hp : parseURL ((withCORS [] req opts.corsMaxAge).2.url.map
      fun u => u.drop 1) with
  | error e => rw [hp] at h; exact HandlerResult.noConfusion h
  | ok location =>
    rw [hp] at h
    simp only [] at h
    rcases getHandlerCore_response_headers _ _ _ _ _ _ _ _ _ h with
      hch | ⟨v, hch⟩
    · rw [hch]
      exact withCORS_acao _ _ _
    · rw [hch, hGet_hSet_ne _ _ _ _ (by decide),
        hGet_hSet_ne _ _ _ _ (by decide), hGet_hSet_ne _ _ _ _ (by decide)]
      exact withCORS_acao _ _ _

/-- Witness for Claim C10 at a concrete locally answered request: the
OPTIONS 200 response of the default handler. -/
theorem c10_local_responses_carry_cors_witness :
    hGet [("access-control-allow-origin", "*"),
      ("access-control-expose-headers", "access-control-allow-origin")]
      "access-control-allow-origin" = some "*" :=
  c10_local_responses_carry_cors defaultHandlerOptions (fun _ => true)
    ⟨"OPTIONS", some "/example.com/", []⟩ 200 none
    [("access-control-allow-origin", "*"),
     ("access-control-expose-headers", "access-control-allow-origin")]
    none rfl

/-! ### Forwarder redirect-chain lemmas (Claim C4) -/

theorem runProxy_cons (env : ProxyEnv) (req : Request) (cs : CorsState)
    (res : Headers) (att : Nat) (pr : UpResp) (rest : List UpResp)
    (h : getProxyForUrl env cs.location.href = .ok none) :
    runProxy env req cs res att (pr :: rest)
      = (match onProxyResponse pr req res cs with
         | .thrown => .thrown
         | .finalize headers res2 =>
             .finalized pr.statusCode headers res2 (att + 1)
         | .follow req2 cs2 res2 => runProxy env req2 cs2 res2 (att + 1) rest)
    := by
  simp only [runProxy]
  rw [h]

theorem onProxyResponse_redir (s : Nat)
    (hcont : REDIRECT_STATUSES.contains s = true)
    (h301 : ((s == 301) || (s == 302) || (s == 303)) = true)
    (req : Request) (res : Headers) (u : URLRec) (pB : String)
    (m c cma : Nat) (hle : c + 1 ≤ m) :
    onProxyResponse (redirResp s) req res ⟨u, pB, m, c, cma⟩
      = .follow
          { req with
              method := "GET"
              headers := hDel (hSet req.headers "content-length" "0")
                "content-type" }
          ⟨nextURL, pB, m, c + 1, cma⟩
          (hSet (if c == 0 then hSet res "x-request-url" u.href else res)
            ("X-CORS-Redirect-" ++ toString (c + 1))
            (toString s ++ " " ++ "http://example.com/next")) := by
  unfold onProxyResponse handleRedirectStatus
  simp only [redirResp, hcont, h301, if_true,
    show hGet [("location", "http://example.com/next")] "location"
      = some "http://example.com/next" from rfl,
    show (("http://example.com/next" : String) == "") = false from rfl,
    Bool.false_eq_true, if_false,
    show (fun v => resolveURL "http://example.com/next" v = some nextURL)
      u from rfl,
    show parseURL (some nextURL.href) = .ok (some nextURL) from rfl]
  rw [if_pos hle]
  rfl

theorem onProxyResponse_exceeded (s : Nat)
    (hcont : REDIRECT_STATUSES.contains s = true)
    (h301 : ((s == 301) || (s == 302) || (s == 303)) = true)
    (req : Request) (res : Headers) (u : URLRec) (pB : String)
    (m c cma : Nat) (hgt : ¬ (c + 1 ≤ m)) :
    onProxyResponse (redirResp s) req res ⟨u, pB, m, c, cma⟩
      = .finalize [("location", pB ++ "/" ++ "http://example.com/next")]
          (if c == 0 then hSet res "x-request-url" u.href else res) := by
  unfold onProxyResponse handleRedirectStatus
  simp only [redirResp, hcont, h301, if_true,
    show hGet [("location", "http://example.com/next")] "location"
      = some "http://example.com/next" from rfl,
    show (("http://example.com/next" : String) == "") = false from rfl,
    Bool.false_eq_true, if_false,
    show (fun v => resolveURL "http://example.com/next" v = some nextURL)
      u from rfl,
    show parseURL (some nextURL.href) = .ok (some nextURL) from rfl]
  rw [if_neg hgt]
  rfl

theorem onProxyResponse_ok (req : Request) (res : Headers) (u : URLRec)
    (pB : String) (m c cma : Nat) :
    onProxyResponse okResp req res ⟨u, pB, m, c, cma⟩
      = .finalize
          (withCORS (hSet okResp.headers "x-final-url" u.href) req cma).1
          (if c == 0 then hSet res "x-request-url" u.href else res) := by
  unfold onProxyResponse
  simp only [okResp]
  rfl

theorem c4_follow_chain (s : Nat)
    (hcont : REDIRECT_STATUSES.contains s = true)
    (h301 : ((s == 301) || (s == 302) || (s == 303)) = true)
    (pB : String) (m cma : Nat) :
    ∀ (k c att : Nat) (req : Request) (res : Headers) (u : URLRec),
      getProxyForUrl envEmpty u.href = .ok none →
      c + k ≤ m →
      ∃ hdrs res2,
        runProxy envEmpty req ⟨u, pB, m, c, cma⟩ res att
            (List.replicate k (redirResp s) ++ [okResp])
          = .finalized 200 hdrs res2 (att + k + 1) := by
  intro k
  induction k with
  | zero =>
    intro c att req res u hgp _
    rw [List.replicate_zero, List.nil_append,
      runProxy_cons envEmpty req ⟨u, pB, m, c, cma⟩ res att okResp [] hgp,
      onProxyResponse_ok req res u pB m c cma]
    exact ⟨_, _, rfl⟩
  | succ k ih =>
    intro c att req res u hgp hle
    rw [List.replicate_succ, List.cons_append,
      runProxy_cons envEmpty req ⟨u, pB, m, c, cma⟩ res att (redirResp s) _ hgp,
      onProxyResponse_redir s hcont h301 req res u pB m c cma (by omega)]
    obtain ⟨hdrs, res2, heq⟩ := ih (c + 1) (att + 1)
      { req with
          method := "GET"
          headers := hDel (hSet req.headers "content-length" "0")
            "content-type" }
      (hSet (if c == 0 then hSet res "x-request-url" u.href else res)
        ("X-CORS-Redirect-" ++ toString (c + 1))
        (toString s ++ " " ++ "http://example.com/next"))
      nextURL rfl (by omega)
    refine ⟨hdrs, res2, ?_⟩
    have hatt : att + 1 + k + 1 = att + (k + 1) + 1 := by omega
    rw [← hatt]
    exact heq

theorem c4_rewrite_chain (s : Nat)
    (hcont : REDIRECT_STATUSES.contains s = true)
    (h301 : ((s == 301) || (s == 302) || (s == 303)) = true)
    (pB : String) (m cma : Nat) :
    ∀ (k c att : Nat) (req : Request) (res : Headers) (u : URLRec),
      getProxyForUrl envEmpty u.href = .ok none →
      c + k = m →
      ∃ res2,
        runProxy envEmpty req ⟨u, pB, m, c, cma⟩ res att
            (List.replicate (k + 1) (redirResp s))
          = .finalized s
              [("location", pB ++ "/" ++ "http://example.com/next")]
              res2 (att + k + 1) := by
  intro k
  induction k with
  | zero =>
    intro c att req res u hgp hceq
    rw [List.replicate_succ, List.replicate_zero,
      runProxy_cons envEmpty req ⟨u, pB, m, c, cma⟩ res att (redirResp s) []
        hgp,
      onProxyResponse_exceeded s hcont h301 req res u pB m c cma (by omega)]
    exact ⟨_, rfl⟩
  | succ k ih =>
    intro c att req res u hgp hceq
    rw [List.replicate_succ,
      runProxy_cons envEmpty req ⟨u, pB, m, c, cma⟩ res att (redirResp s) _
        hgp,
      onProxyResponse_redir s hcont h301 req res u pB m c cma (by omega)]
    obtain ⟨res2, hh⟩ := ih (c + 1) (att + 1)
      { req with
          method := "GET"
          headers := hDel (hSet req.headers "content-length" "0")
            "content-type" }
      (hSet (if c == 0 then hSet res "x-request-url" u.href else res)
        ("X-CORS-Redirect-" ++ toString (c + 1))
        (toString s ++ " " ++ "http://example.com/next"))
      nextURL rfl (by omega)
    refine ⟨res2, ?_⟩
    have hatt : att + 1 + k + 1 = att + (k + 1) + 1 := by omega
    rw [← hatt]
    exact hh

/-- Claim C4.  For every chain length `n` (taken as `maxRedirects`) and
every auto-follow redirect status `s` (301/302/303), a chain of `n`
redirect responses each carrying a resolvable Location followed by a 200
makes the Forwarder issue exactly `n + 1` outbound attempts (`n`
internal re-attempts) and finalize the 200 with no further redirect;
while a chain of `n + 1` redirects makes it follow the first `n` and,
on the hop that pushes the counter beyond `maxRedirects`, not follow but
rewrite the Location header to the proxy base URL followed by `/` and
the absolute location, preserving the original redirect status `s` —
still `n + 1` outbound attempts. -/
theorem c4_redirect_chain (n s : Nat) (hs : s = 301 ∨ s = 302 ∨ s = 303)
    (pB : String) :
    (∃ hdrs res2,
      runProxy envEmpty chainReq ⟨targetURL, pB, n, 0, 0⟩ [] 0
          (List.replicate n (redirResp s) ++ [okResp])
        = .finalized 200 hdrs res2 (n + 1)) ∧
    (∃ res2,
      runProxy envEmpty chainReq ⟨targetURL, pB, n, 0, 0⟩ [] 0
          (List.replicate (n + 1) (redirResp s))
        = .finalized s [("location", pB ++ "/" ++ "http://example.com/next")]
            res2 (n + 1)) := by
  have hcont : REDIRECT_STATUSES.contains s = true := by
    rcases hs with rfl | rfl | rfl <;> rfl
  have h301 : ((s == 301) || (s == 302) || (s == 303)) = true := by
    rcases hs with rfl | rfl | rfl <;> rfl
  constructor
  · obtain ⟨hdrs, res2, heq⟩ := c4_follow_chain s hcont h301 pB n 0 n 0 0
      chainReq [] targetURL rfl (by omega)
    have : 0 + n + 1 = n + 1 := by omega
    rw [this] at heq
    exact ⟨hdrs, res2, heq⟩
  · obtain ⟨res2, heq⟩ := c4_rewrite_chain s hcont h301 pB n 0 n 0 0
      chainReq [] targetURL rfl (by omega)
    have : 0 + n + 1 = n + 1 := by omega
    rw [this] at heq
    exact ⟨res2, heq⟩


/-- Witness for Claim C4 at `maxRedirects = 1`, status 302, proxy base
`http://my.proxy`. -/
theorem c4_redirect_chain_witness :
    (∃ hdrs res2,
      runProxy envEmpty chainReq ⟨targetURL, "http://my.proxy", 1, 0, 0⟩ [] 0
          (List.replicate 1 (redirResp 302) ++ [okResp])
        = .finalized 200 hdrs res2 (1 + 1)) ∧
    (∃ res2,
      runProxy envEmpty chainReq ⟨targetURL, "http://my.proxy", 1, 0, 0⟩ [] 0
          (List.replicate (1 + 1) (redirResp 302))
        = .finalized 302
            [("location", "http://my.proxy" ++ "/" ++ "http://example.com/next")]
            res2 (1 + 1)) :=
  c4_redirect_chain 1 302 (Or.inr (Or.inl rfl)) "http://my.proxy"

end CorsProxy
